import Mathlib

/-
Verification development for the budget-buddy notification-scheduling and
AI-content pipeline (`src/services/aiService.ts` and the `NotificationService`
in `src/constants/categories.ts`).

Modelling conventions:
* JavaScript numbers are modelled as exact rationals (`ℚ`); where the source
  can produce `Infinity`/`NaN` (division by zero in the budget-alert filter)
  the extended type `JSNum` with IEEE-style rules is used.
* Timestamps are epoch milliseconds as `Int`; local time is modelled as a
  fixed-offset (offset zero) calendar with 86400000-ms days and no DST, so
  `Date.setHours`/`getDay`/`getHours`/`getMinutes` become integer arithmetic.
* Every `await`ed collaborator call (notification substrate, LLM endpoint)
  is an input: either a value or a thrown error, i.e. `Except String α`.
  A JS `try { ... } catch { ... }` is an explicit match on that `Except`.
* Async functions are modelled as total functions returning `Except String α`
  (a settled promise: resolved or rejected); an operation provably returning
  `.ok` on all inputs is one that never leaks a rejection to its caller.
-/

set_option linter.unusedVariables false

/-! ### JavaScript primitive helpers -/

/-- JS `x || d` for an optional number: `undefined` and `0` are falsy. -/
def jsOrInt (x : Option Int) (d : Int) : Int :=
  match x with
  | some v => if v = 0 then d else v
  | none => d

/-- JS `x || d` for an optional string: `undefined` and `""` are falsy. -/
def jsOrStr (x : Option String) (d : String) : String :=
  match x with
  | some s => if s = "" then d else s
  | none => d

/-- JS `x || d` for an optional rational: `undefined` and `0` are falsy. -/
def jsOrQ (x : Option ℚ) (d : ℚ) : ℚ :=
  match x with
  | some q => if q = 0 then d else q
  | none => d

/-- JS `x ?? d` (nullish coalescing). -/
def jsNullish {α : Type} (x : Option α) (d : α) : α :=
  match x with
  | some v => v
  | none => d

/-- `String.prototype.toLowerCase` (ASCII-adequate, matching the keyword sets). -/
def toLowerStr (s : String) : String :=
  String.mk (s.data.map Char.toLower)

/-- `String.prototype.trim`: strip whitespace from both ends. -/
def trimStr (s : String) : String :=
  String.mk ((((s.data.dropWhile Char.isWhitespace).reverse).dropWhile Char.isWhitespace).reverse)

def listStartsWith : List Char → List Char → Bool
  | _, [] => true
  | [], _ :: _ => false
  | h :: hs, n :: ns => h = n && listStartsWith hs ns

def listContainsSub (needle : List Char) : List Char → Bool
  | [] => listStartsWith [] needle
  | c :: rest => listStartsWith (c :: rest) needle || listContainsSub needle rest

/-- `hay.includes(needle)` on strings. -/
def strIncludes (hay needle : String) : Bool :=
  listContainsSub needle.data hay.data

/-- A regex of the form `/w1|w2|...|wn/` (literal alternatives only, as in the
source's keyword classifiers) tests whether some alternative occurs as a
substring. -/
def regexAltTest (alts : List String) (s : String) : Bool :=
  alts.any (fun a => strIncludes s a)

/-! ### IEEE-style JS number model (only where `Infinity`/`NaN` can arise) -/

inductive JSNum where
  | fin (q : ℚ)
  | posInf
  | negInf
  | nan

/-- JS `/` including division by zero: `x/0` is `Infinity`, `-Infinity` or
`NaN` according to the sign of `x`. -/
def jsDiv : JSNum → JSNum → JSNum
  | .nan, _ => .nan
  | _, .nan => .nan
  | .fin x, .fin y =>
    if y = 0 then (if 0 < x then .posInf else if x < 0 then .negInf else .nan)
    else .fin (x / y)
  | .posInf, .fin y => if y < 0 then .negInf else .posInf
  | .negInf, .fin y => if y < 0 then .posInf else .negInf
  | .fin _, .posInf => .fin 0
  | .fin _, .negInf => .fin 0
  | .posInf, .posInf => .nan
  | .posInf, .negInf => .nan
  | .negInf, .posInf => .nan
  | .negInf, .negInf => .nan

/-- JS `*` on the extended number line; `Infinity * 0 = NaN`. -/
def jsMul : JSNum → JSNum → JSNum
  | .nan, _ => .nan
  | _, .nan => .nan
  | .fin x, .fin y => .fin (x * y)
  | .posInf, .fin y => if 0 < y then .posInf else if y < 0 then .negInf else .nan
  | .fin x, .posInf => if 0 < x then .posInf else if x < 0 then .negInf else .nan
  | .negInf, .fin y => if 0 < y then .negInf else if y < 0 then .posInf else .nan
  | .fin x, .negInf => if 0 < x then .negInf else if x < 0 then .posInf else .nan
  | .posInf, .posInf => .posInf
  | .posInf, .negInf => .negInf
  | .negInf, .posInf => .negInf
  | .negInf, .negInf => .posInf

/-- JS `>=`: any comparison with `NaN` is false. -/
def jsGe : JSNum → JSNum → Bool
  | .nan, _ => false
  | _, .nan => false
  | .fin x, .fin y => decide (y ≤ x)
  | .posInf, _ => true
  | .fin _, .posInf => false
  | .negInf, .posInf => false
  | .fin _, .negInf => true
  | .negInf, .fin _ => false
  | .negInf, .negInf => true

/-! ### Domain data (`constants/categories.ts`, `types/*.ts`) -/

def BUDGET_CATEGORIES : List String :=
  ["Food", "Transportation", "Housing", "Entertainment", "Other"]

structure Budget where
  category : String
  amount : ℚ
  spent : ℚ

/-! ### AIService (`src/services/aiService.ts`) -/

namespace AIService

structure Transaction where
  description : String
  amount : JSNum
  date : String
  category : Option String

/-- `AIService.fallbackCategorization`: keyword-regex classifier over the
lower-cased description. -/
def fallbackCategorization (description : String) : String :=
  let desc := toLowerStr description
  if regexAltTest ["food", "restaurant", "grocery", "meal", "drink", "cafe"] desc then "Food"
  else if regexAltTest ["transport", "uber", "lyft", "taxi", "gas", "train", "bus", "subway"] desc then "Transportation"
  else if regexAltTest ["rent", "mortgage", "utilities", "water", "electricity", "maintenance"] desc then "Housing"
  else if regexAltTest ["movie", "game", "netflix", "spotify", "entertainment", "concert"] desc then "Entertainment"
  else "Other"

/-- `AIService.categorizeTransaction`. The remote completion call is the
input `completion`: `.error` is any thrown failure (timeout, 429, ...),
`.ok content?` a response whose first choice has the given optional content.
`makeAIRequest`'s catch turns any failure into the (eagerly computed)
fallback value; a successful response is trimmed, defaulted to `"Other"`
when empty, and checked for membership in the fixed category list. -/
def categorizeTransaction (t : Transaction) (completion : Except String (Option String)) : String :=
  let fallbackValue := fallbackCategorization t.description
  match completion with
  | .error _ => fallbackValue
  | .ok content? =>
    let category := jsOrStr (content?.map trimStr) "Other"
    if BUDGET_CATEGORIES.contains category then category else "Other"

structure SpendingPattern where
  frequentCategories : List (String × Nat)
  averageSpending : List (String × ℚ)
  overspendingTendency : List String
  savingOpportunities : List String
  monthlyTrend : String

/-- `acc[category] = (acc[category] || 0) + 1` on a JS object, preserving
insertion order of keys (the order `Object.entries` later reports). -/
def objIncr : List (String × Nat) → String → List (String × Nat)
  | [], c => [(c, 1)]
  | (k, v) :: rest, c => if k = c then (k, v + 1) :: rest else (k, v) :: objIncr rest c

/-- The `transactions.reduce` building `categoryCounts`. -/
def categoryCounts (txs : List Transaction) : List (String × Nat) :=
  txs.foldl (fun acc t => objIncr acc (jsOrStr t.category (fallbackCategorization t.description))) []

/-- Stable insertion of one entry into a frequency-descending list: the entry
goes after every existing entry of greater or equal frequency. -/
def insertFreqDesc (x : String × Nat) : List (String × Nat) → List (String × Nat)
  | [] => [x]
  | y :: ys => if y.2 < x.2 then x :: y :: ys else y :: insertFreqDesc x ys

/-- `Array.prototype.sort` with comparator `(a, b) => b.frequency - a.frequency`:
a stable descending sort by frequency (modelled by stable insertion sort,
which computes the same result). -/
def stableSortFreqDesc (l : List (String × Nat)) : List (String × Nat) :=
  l.foldl (fun acc x => insertFreqDesc x acc) []

/-- The `BUDGET_CATEGORIES.reduce` building `averageSpending`:
`budgets.find(b => b.category === category)?.spent || 0` per category. -/
def averageSpendingOf (budgets : List Budget) : List (String × ℚ) :=
  BUDGET_CATEGORIES.map (fun c => (c, jsOrQ ((budgets.find? (fun b => b.category == c)).map Budget.spent) 0))

/-- `AIService.getFallbackSpendingPattern`. -/
def getFallbackSpendingPattern (txs : List Transaction) (budgets : List Budget) : SpendingPattern :=
  { frequentCategories := stableSortFreqDesc (categoryCounts txs)
    averageSpending := averageSpendingOf budgets
    overspendingTendency := (budgets.filter (fun b => b.amount < b.spent)).map Budget.category
    savingOpportunities := (budgets.filter (fun b => b.amount * (4 / 5) < b.spent)).map Budget.category
    monthlyTrend := "stable" }

/-- `AIService.getFallbackNotification`. -/
def getFallbackNotification (t : String) : String :=
  if t = "budget-alert" then "Your budget is running low. Consider reviewing your spending."
  else if t = "spending-tip" then "Track your daily expenses to stay within your budget."
  else "Look for opportunities to save on regular expenses."

/-- `AIService.generateNotificationContent`: trimmed response text, the static
fallback when the response is empty/missing, and the same fallback when the
request throws (caught in the function's own try/catch). -/
def generateNotificationContent (completion : Except String (Option String)) (notificationType : String) : String :=
  match completion with
  | .error _ => getFallbackNotification notificationType
  | .ok content? => jsOrStr (content?.map trimStr) (getFallbackNotification notificationType)

end AIService

/-! ### A JSON value model and parser (for `JSON.parse` in
`analyzeSpendingPatterns`).  The parser covers the JSON subset the analysis
path can meet (literals, integers/decimal fractions, strings with basic
escapes, arrays, objects); anything it rejects is a thrown `SyntaxError`,
i.e. `none`. -/

inductive JVal where
  | jnull
  | jbool (b : Bool)
  | jnum (q : ℚ)
  | jstr (s : String)
  | jarr (elems : List JVal)
  | jobj (fields : List (String × JVal))

def quoteChar : Char := Char.ofNat 34
def backslashChar : Char := Char.ofNat 92
def lbraceChar : Char := Char.ofNat 123
def rbraceChar : Char := Char.ofNat 125
def lbrackChar : Char := Char.ofNat 91
def rbrackChar : Char := Char.ofNat 93

def isJsonWs (c : Char) : Bool :=
  c = ' ' || c = Char.ofNat 10 || c = Char.ofNat 9 || c = Char.ofNat 13

def skipWs : List Char → List Char
  | [] => []
  | c :: cs => if isJsonWs c then skipWs cs else c :: cs

def startsWithKw (kw : String) (cs : List Char) : Bool :=
  cs.take kw.length = kw.data

/-- Parse the remainder of a JSON string literal (after the opening quote),
returning its characters and the input following the closing quote. -/
def parseStringChars : List Char → Option (List Char × List Char)
  | [] => none
  | c :: cs =>
    if c = quoteChar then some ([], cs)
    else if c = backslashChar then
      match cs with
      | [] => none
      | e :: cs2 =>
        let esc : Option Char :=
          if e = quoteChar then some quoteChar
          else if e = backslashChar then some backslashChar
          else if e = '/' then some '/'
          else if e = 'n' then some (Char.ofNat 10)
          else if e = 't' then some (Char.ofNat 9)
          else if e = 'r' then some (Char.ofNat 13)
          else if e = 'b' then some (Char.ofNat 8)
          else if e = 'f' then some (Char.ofNat 12)
          else none
        match esc with
        | none => none
        | some ch => (parseStringChars cs2).map (fun p => (ch :: p.1, p.2))
    else (parseStringChars cs).map (fun p => (c :: p.1, p.2))

def digitsToNat (acc : Nat) : List Char → Nat × List Char
  | [] => (acc, [])
  | c :: cs => if c.isDigit then digitsToNat (acc * 10 + (c.toNat - 48)) cs else (acc, c :: cs)

/-- Parse a JSON number (optional minus, integer part, optional fraction;
exponents are outside the modelled subset and fail as a syntax error). -/
def parseNumber (cs : List Char) : Option (ℚ × List Char) :=
  let signed : Bool × List Char :=
    match cs with
    | c :: rest => if c = '-' then (true, rest) else (false, cs)
    | [] => (false, cs)
  match signed.2 with
  | [] => none
  | c :: _ =>
    if c.isDigit then
      let ip := digitsToNat 0 signed.2
      let withFrac : Option (ℚ × List Char) :=
        match ip.2 with
        | d :: cs3 =>
          if d = '.' then
            let fracDigits := cs3.takeWhile Char.isDigit
            if fracDigits = [] then none
            else
              let fracVal := (digitsToNat 0 fracDigits).1
              some ((ip.1 : ℚ) + (fracVal : ℚ) / ((10 : ℚ) ^ fracDigits.length), cs3.dropWhile Char.isDigit)
          else some ((ip.1 : ℚ), ip.2)
        | [] => some ((ip.1 : ℚ), [])
      withFrac.map (fun p => (if signed.1 then -p.1 else p.1, p.2))
    else none

inductive PMode where
  | value
  | elems
  | members

inductive PRes where
  | val (v : JVal)
  | arrElems (vs : List JVal)
  | objMembers (ms : List (String × JVal))

/-- Fuel-indexed recursive-descent parser.  `value` mode parses one JSON
value, `elems` the element list of an array after `[`, `members` the member
list of an object after `{` (both knowing the collection is non-empty). -/
def parseJ : Nat → PMode → List Char → Option (PRes × List Char)
  | 0, _, _ => none
  | fuel + 1, .value, cs0 =>
    let cs := skipWs cs0
    if startsWithKw "null" cs then some (.val .jnull, cs.drop 4)
    else if startsWithKw "true" cs then some (.val (.jbool true), cs.drop 4)
    else if startsWithKw "false" cs then some (.val (.jbool false), cs.drop 5)
    else
      match cs with
      | [] => none
      | c :: rest =>
        if c = quoteChar then
          (parseStringChars rest).map (fun p => (.val (.jstr (String.mk p.1)), p.2))
        else if c = lbrackChar then
          match skipWs rest with
          | [] => none
          | d :: rest2 =>
            if d = rbrackChar then some (.val (.jarr []), rest2)
            else
              match parseJ fuel .elems (d :: rest2) with
              | some (.arrElems vs, r) => some (.val (.jarr vs), r)
              | _ => none
        else if c = lbraceChar then
          match skipWs rest with
          | [] => none
          | d :: rest2 =>
            if d = rbraceChar then some (.val (.jobj []), rest2)
            else
              match parseJ fuel .members (d :: rest2) with
              | some (.objMembers ms, r) => some (.val (.jobj ms), r)
              | _ => none
        else if c.isDigit || c = '-' then
          (parseNumber (c :: rest)).map (fun p => (.val (.jnum p.1), p.2))
        else none
  | fuel + 1, .elems, cs =>
    match parseJ fuel .value cs with
    | some (.val v, r) =>
      (match skipWs r with
       | d :: r2 =>
         if d = ',' then
           match parseJ fuel .elems r2 with
           | some (.arrElems vs, rr) => some (.arrElems (v :: vs), rr)
           | _ => none
         else if d = rbrackChar then some (.arrElems [v], r2)
         else none
       | [] => none)
    | _ => none
  | fuel + 1, .members, cs0 =>
    match skipWs cs0 with
    | c :: rest =>
      if c = quoteChar then
        match parseStringChars rest with
        | some (key, r1) =>
          (match skipWs r1 with
           | d :: r2 =>
             if d = ':' then
               match parseJ fuel .value r2 with
               | some (.val v, r3) =>
                 (match skipWs r3 with
                  | e :: r4 =>
                    if e = ',' then
                      match parseJ fuel .members r4 with
                      | some (.objMembers ms, rr) => some (.objMembers ((String.mk key, v) :: ms), rr)
                      | _ => none
                    else if e = rbraceChar then some (.objMembers [(String.mk key, v)], r4)
                    else none
                  | [] => none)
               | _ => none
             else none
           | [] => none)
        | none => none
      else none
    | [] => none

/-- `JSON.parse`: parse one value, require only whitespace after it;
`none` models a thrown `SyntaxError`. -/
def jsonParse (s : String) : Option JVal :=
  match parseJ (2 * s.length + 2) .value s.data with
  | some (.val v, rest) => if skipWs rest = [] then some v else none
  | _ => none

namespace AIService

inductive AnalyzeResult where
  | parsed (j : JVal)
  | fallback (p : SpendingPattern)

/-- `AIService.analyzeSpendingPatterns`.  The remote call is the input
`completion` (`.error` = thrown request failure, `.ok content?` = response
with optional message content).  On success the source runs
`JSON.parse(content || String.mk [lbraceChar, rbraceChar])` and returns the parsed value as-is
(cast, unvalidated); only a thrown request failure or a parse `SyntaxError`
reaches the catch, which computes the deterministic fallback. -/
def analyzeSpendingPatterns (txs : List Transaction) (budgets : List Budget)
    (completion : Except String (Option String)) : AnalyzeResult :=
  match completion with
  | .error _ => .fallback (getFallbackSpendingPattern txs budgets)
  | .ok content? =>
    let responseContent := jsOrStr content? (String.mk [lbraceChar, rbraceChar])
    match jsonParse responseContent with
    | some j => .parsed j
    | none => .fallback (getFallbackSpendingPattern txs budgets)

/-- Modelled from the spec: the SpendingPattern shape a well-formed analysis
response must have (the source has no such validator; this definition is the
spec's expected shape, used to compare the code's behaviour against the
claimed validation). -/
def conformsToSpendingPatternShape : JVal → Bool
  | .jobj fields =>
    (match fields.lookup "frequentCategories" with
     | some (.jarr xs) =>
       xs.all (fun x =>
         match x with
         | .jobj entry =>
           (match entry.lookup "category" with
            | some (.jstr c) => BUDGET_CATEGORIES.contains c
            | _ => false)
           && (match entry.lookup "frequency" with
               | some (.jnum _) => true
               | _ => false)
         | _ => false)
     | _ => false)
    && (match fields.lookup "averageSpending" with
        | some (.jobj avg) =>
          avg.all (fun p =>
            BUDGET_CATEGORIES.contains p.1
            && (match p.2 with
                | .jnum _ => true
                | _ => false))
        | _ => false)
    && (match fields.lookup "overspendingTendency" with
        | some (.jarr xs) =>
          xs.all (fun x =>
            match x with
            | .jstr s => BUDGET_CATEGORIES.contains s
            | _ => false)
        | _ => false)
    && (match fields.lookup "savingOpportunities" with
        | some (.jarr xs) =>
          xs.all (fun x =>
            match x with
            | .jstr s => BUDGET_CATEGORIES.contains s
            | _ => false)
        | _ => false)
    && (match fields.lookup "monthlyTrend" with
        | some (.jstr s) => s = "increasing" || s = "decreasing" || s = "stable"
        | _ => false)
  | _ => false

end AIService

/-! ### NotificationService (the service concatenated into
`src/constants/categories.ts`) -/

namespace NotificationService

def MIN_HOUR : Int := 9
def MAX_HOUR : Int := 20

def msPerDay : Int := 86400000
def msPerHour : Int := 3600000
def msPerMinute : Int := 60000

/-- `date.setHours(h, m, 0, 0)`: the same local calendar day at `h:m`. -/
def setHoursTo (t hour minute : Int) : Int :=
  (t / msPerDay) * msPerDay + hour * msPerHour + minute * msPerMinute

/-- `Date.prototype.getDay` (epoch day 0, 1970-01-01, was a Thursday = 4). -/
def jsGetDay (t : Int) : Int := (t / msPerDay + 4) % 7

/-- `Date.prototype.getHours`. -/
def jsGetHours (t : Int) : Int := (t / msPerHour) % 24

/-- `Date.prototype.getMinutes`. -/
def jsGetMinutes (t : Int) : Int := (t / msPerMinute) % 60

/-- `NotificationService.getNextTime`. -/
def getNextTime (hour minute now : Int) : Int :=
  let date := setHoursTo now hour minute
  if date ≤ now then date + msPerDay else date

/-- The `while (date.getDay() !== weekDay || date <= new Date())` loop of
`getNextWeekday`, with fuel bounding the number of one-day increments by
`fuel - 1`.  For `weekDay ∈ [0,6]` fuel 8 always suffices (proved below);
outside that range the source loop never terminates, modelled as `none`. -/
def getNextWeekdayLoop (weekDay now : Int) : Nat → Int → Option Int
  | 0, _ => none
  | fuel + 1, date =>
    if jsGetDay date = weekDay ∧ now < date then some date
    else getNextWeekdayLoop weekDay now fuel (date + msPerDay)

/-- `NotificationService.getNextWeekday`. -/
def getNextWeekday (weekDay hour minute now : Int) : Option Int :=
  getNextWeekdayLoop weekDay now 8 (setHoursTo now hour minute)

/-- `NotificationService.getPriorityLevel` (to the substrate's Android
priority constants). -/
def getPriorityLevel (priority : Option String) : String :=
  match priority with
  | some s => if s = "max" then "MAX" else if s = "high" then "HIGH" else "DEFAULT"
  | none => "DEFAULT"

/-- `NotificationService.getRandomHour` from one `Math.random()` sample. -/
def getRandomHour (q : ℚ) : Int :=
  Rat.floor (q * (((MAX_HOUR - MIN_HOUR + 1) : Int) : ℚ)) + MIN_HOUR

/-- `NotificationService.getRandomMinute`. -/
def getRandomMinute (q : ℚ) : Int := Rat.floor (q * 60)

/-- `NotificationService.getRandomWeekDay`. -/
def getRandomWeekDay (q : ℚ) : Int := Rat.floor (q * 7)

/-- The `ScheduleConfig` record (fields in source order: title, body, data,
priority, sound, hour, minute, weekDay, date). `data` keeps only its
string-valued entries (`reminderId` is the only key the core ever reads). -/
structure ScheduleConfig where
  title : String
  body : String
  data : List (String × String)
  priority : Option String
  sound : Option Bool
  hour : Option Int
  minute : Option Int
  weekDay : Option Int
  date : Option Int

/-- One call to `Notifications.scheduleNotificationAsync`: the content record
plus the relative trigger. -/
structure SubstrateCall where
  title : String
  body : String
  data : List (String × String)
  sound : Bool
  priority : String
  seconds : Int
  repeats : Bool

/-- A pending notification as reported by
`Notifications.getAllScheduledNotificationsAsync`. -/
structure ScheduledNotification where
  identifier : String
  data : List (String × String)

/-- Behaviour of the external collaborators during one operation: each
`await`ed call either yields a value or throws.  Randomness
(`Math.random()`) is an indexed stream of samples. -/
structure Env where
  setHandlerResult : Except String Unit
  platformAndroid : Bool
  setChannelResult : Except String Unit
  permissionsResult : Except String String
  scheduleResult : SubstrateCall → Except String String
  getScheduledResult : Except String (List ScheduledNotification)
  cancelResult : String → Except String Unit
  analyzeCompletion : Except String (Option String)
  generateCompletion : Nat → Except String (Option String)
  random : Nat → ℚ

/-- The hour validation at the top of `scheduleNotification`'s try block. -/
def hourOutOfRange (hour : Option Int) : Bool :=
  match hour with
  | some v => if v < MIN_HOUR ∨ MAX_HOUR < v then true else false
  | none => false

/-- Resolution of the three `ScheduleSpec` variants to a wall-clock target
(`config.date` / `config.weekDay` / hour-minute), before the past check;
`config.hour || 9` and `config.minute || 0` follow JS truthiness. -/
def resolveTarget (cfg : ScheduleConfig) (now : Int) : Option Int :=
  match cfg.date with
  | some d => some d
  | none =>
    match cfg.weekDay with
    | some wd => getNextWeekday wd (jsOrInt cfg.hour 9) (jsOrInt cfg.minute 0) now
    | none => some (getNextTime (jsOrInt cfg.hour 9) (jsOrInt cfg.minute 0) now)

/-- The resolved trigger after `if (targetTime <= now) targetTime += 24h`. -/
def resolveTrigger (cfg : ScheduleConfig) (now : Int) : Option Int :=
  (resolveTarget cfg now).map (fun t => if t ≤ now then t + msPerDay else t)

/-- The content/trigger record handed to the substrate:
`seconds = Math.floor((targetTime - now) / 1000)`, `repeats = false`. -/
def mkSubstrateCall (cfg : ScheduleConfig) (now target : Int) : SubstrateCall :=
  { title := cfg.title
    body := cfg.body
    data := cfg.data
    sound := jsNullish cfg.sound true
    priority := getPriorityLevel cfg.priority
    seconds := (target - now) / 1000
    repeats := false }

/-- Everything inside `scheduleNotification`'s try block after the hour
validation: resolve the trigger and submit one substrate call.  The result
pairs the outcome of the try body with the trace of substrate calls made. -/
def scheduleNotificationCore (cfg : ScheduleConfig) (now : Int) (env : Env) :
    Except String String × List SubstrateCall :=
  match resolveTrigger cfg now with
  | none => (.error "weekday loop does not terminate", [])
  | some target =>
    let call := mkSubstrateCall cfg now target
    match env.scheduleResult call with
    | .ok id => (.ok id, [call])
    | .error e => (.error e, [call])

/-- The whole try block of `scheduleNotification`: the hour validation throws
before any substrate call when `hour` is explicitly out of `[9, 20]`. -/
def scheduleNotificationTry (cfg : ScheduleConfig) (now : Int) (env : Env) :
    Except String String × List SubstrateCall :=
  if hourOutOfRange cfg.hour then (.error "Hour must be between 9 and 20", [])
  else scheduleNotificationCore cfg now env

/-- `NotificationService.scheduleNotification`: the catch turns any error of
the try block (the hour validation throw included) into `null`. -/
def scheduleNotification (cfg : ScheduleConfig) (now : Int) (env : Env) :
    Option String × List SubstrateCall :=
  match scheduleNotificationTry cfg now env with
  | (.ok id, calls) => (some id, calls)
  | (.error _, calls) => (none, calls)

/-- The filter predicate of `scheduleBudgetAlerts`:
`(budget.spent / budget.amount) * 100 >= 80` under JS number semantics. -/
def budgetAlertCond (b : Budget) : Bool :=
  jsGe (jsMul (jsDiv (JSNum.fin b.spent) (JSNum.fin b.amount)) (JSNum.fin 100)) (JSNum.fin 80)

/-- `NotificationService.scheduleBudgetAlerts`: one high-priority alert at a
random hour/minute for every budget passing the filter (message text comes
from the AI service with its own internal fallback). -/
def scheduleBudgetAlerts (budgets : List Budget) (env : Env) (now : Int) :
    List (Option String × List SubstrateCall) :=
  ((budgets.filter budgetAlertCond).enum).map (fun p =>
    scheduleNotification
      { title := "Budget Alert"
        body := AIService.generateNotificationContent (env.generateCompletion p.1) "budget-alert"
        data := []
        priority := some "high"
        sound := none
        hour := some (getRandomHour (env.random (2 * p.1)))
        minute := some (getRandomMinute (env.random (2 * p.1 + 1)))
        weekDay := none
        date := none } now env)

/-- `NotificationService.scheduleSpendingTips`: `Math.floor(r*2)+2` tips at
random weekday slots. -/
def scheduleSpendingTips (env : Env) (now : Int) :
    List (Option String × List SubstrateCall) :=
  let numberOfTips := (Rat.floor (env.random 90 * 2) + 2).toNat
  (List.range numberOfTips).map (fun i =>
    scheduleNotification
      { title := "Spending Tip"
        body := AIService.generateNotificationContent (env.generateCompletion (100 + i)) "spending-tip"
        data := []
        priority := some "default"
        sound := none
        hour := some (getRandomHour (env.random (100 + 3 * i)))
        minute := some (getRandomMinute (env.random (101 + 3 * i)))
        weekDay := some (getRandomWeekDay (env.random (102 + 3 * i)))
        date := none } now env)

/-- `NotificationService.scheduleSavingOpportunities`: `Math.floor(r*2)+1`
messages at random weekday slots. -/
def scheduleSavingOpportunities (env : Env) (now : Int) :
    List (Option String × List SubstrateCall) :=
  let numberOfOpportunities := (Rat.floor (env.random 91 * 2) + 1).toNat
  (List.range numberOfOpportunities).map (fun i =>
    scheduleNotification
      { title := "Saving Opportunity"
        body := AIService.generateNotificationContent (env.generateCompletion (200 + i)) "saving-opportunity"
        data := []
        priority := some "default"
        sound := none
        hour := some (getRandomHour (env.random (200 + 3 * i)))
        minute := some (getRandomMinute (env.random (201 + 3 * i)))
        weekDay := some (getRandomWeekDay (env.random (202 + 3 * i)))
        date := none } now env)

/-- The try body of `NotificationService.initialize`: install the display
handler, set up the Android channel when on Android, request permission and
report whether it was granted; any collaborator throw escapes to the catch. -/
def initTryBody (env : Env) : Except String Bool :=
  match env.setHandlerResult with
  | .error e => .error e
  | .ok _ =>
    match (if env.platformAndroid then env.setChannelResult else .ok ()) with
    | .error e => .error e
    | .ok _ =>
      match env.permissionsResult with
      | .error e => .error e
      | .ok status => .ok (status == "granted")

/-- `NotificationService.initialize`.  Input: current `isInitialized` flag and
the collaborator behaviour; output: the returned boolean and the new flag.
The whole body sits in a try whose catch logs and returns `false`, leaving
the flag unchanged. -/
def initializeService (isInitialized : Bool) (env : Env) : Except String (Bool × Bool) :=
  if isInitialized then .ok (true, true)
  else
    match initTryBody env with
    | .ok granted => .ok (granted, granted)
    | .error _ => .ok (false, isInitialized)

/-- `NotificationService.scheduleRandomNotifications`: ensure initialization
(returning silently when it fails), compute the spending pattern, then issue
the three batches; the surrounding try/catch makes any failure silent.
Returns the new `isInitialized` flag and the per-notification outcomes. -/
def scheduleRandomNotifications (isInitialized : Bool) (env : Env) (now : Int)
    (txs : List AIService.Transaction) (budgets : List Budget) :
    Except String (Bool × List (Option String × List SubstrateCall)) :=
  match (if isInitialized then Except.ok (true, true) else initializeService false env) with
  | .error e => .error e
  | .ok (initOk, isInit2) =>
    if initOk = false then .ok (isInit2, [])
    else
      let pattern := AIService.analyzeSpendingPatterns txs budgets env.analyzeCompletion
      .ok (isInit2,
        scheduleBudgetAlerts budgets env now
          ++ scheduleSpendingTips env now
          ++ scheduleSavingOpportunities env now)

/-- A bill reminder record; `due_date` is the timestamp `new Date(due_date)`
parses to. -/
structure BillReminder where
  id : String
  title : String
  amount : ℚ
  due_date : Int
  recurring : Bool
  recurring_period : Option String
  paid : Bool

/-- `Number.prototype.toFixed(2)` (round to cents; ties toward +infinity,
an adequate rendering since no claim depends on the body text). -/
def toFixed2 (q : ℚ) : String :=
  let cents : Int := Rat.floor (q * 100 + 1 / 2)
  toString (cents / 100) ++ "." ++
    (let r := (cents % 100).toNat
     (if r < 10 then "0" else "") ++ toString r)

/-- `NotificationService.scheduleBillReminder`: initialize if needed (result
ignored), resolve the due date at a fixed 09:00 local, suppress paid or
past-due reminders with `null`, otherwise schedule a single notification
carrying `data.reminderId`. -/
def scheduleBillReminder (r : BillReminder) (isInitialized : Bool) (env : Env) (now : Int) :
    Except String (Option String × Bool × List SubstrateCall) :=
  match (if isInitialized then Except.ok (true, true) else initializeService false env) with
  | .error e => .error e
  | .ok (_, isInit2) =>
    let dueDate := setHoursTo r.due_date 9 0
    if dueDate < now ∨ r.paid then .ok (none, isInit2, [])
    else
      let result := scheduleNotification
        { title := "Bill Due Today"
          body := r.title ++ " - $" ++ toFixed2 r.amount ++ " is due today"
          data := [("reminderId", r.id)]
          priority := none
          sound := none
          hour := none
          minute := none
          weekDay := none
          date := some dueDate } now env
      .ok (result.1, isInit2, result.2)

/-- `NotificationService.cancelBillReminder`: enumerate scheduled
notifications, filter on `data.reminderId`, cancel each match.  There is no
try/catch: a throwing substrate call rejects the returned promise.  The
second component is the list of identifiers the substrate was asked to
cancel. -/
def cancelBillReminder (reminderId : String) (env : Env) :
    Except String Unit × List String :=
  match env.getScheduledResult with
  | .error e => (.error e, [])
  | .ok scheduled =>
    let reminders := scheduled.filter (fun n => n.data.lookup "reminderId" == some reminderId)
    let ids := reminders.map ScheduledNotification.identifier
    let firstErr := ids.findSome? (fun i =>
      match env.cancelResult i with
      | .error e => some e
      | .ok _ => none)
    (match firstErr with
     | some e => .error e
     | none => .ok (), ids)

end NotificationService

/-! ### Concrete fixtures used by witnesses and counterexamples -/

/-- A collaborator behaviour where every substrate/network call succeeds and
nothing is currently scheduled. -/
def envEmptySub : NotificationService.Env :=
  ⟨.ok (), false, .ok (), .ok "granted", fun _ => .ok "notif-1", .ok [],
   fun _ => .ok (), .ok none, fun _ => .ok none, fun _ => 0⟩

/-- A collaborator behaviour where enumerating scheduled notifications throws. -/
def envListFails : NotificationService.Env :=
  ⟨.ok (), false, .ok (), .ok "granted", fun _ => .ok "notif-1", .error "substrate down",
   fun _ => .ok (), .ok none, fun _ => .ok none, fun _ => 0⟩

/-- A reference "now": noon of epoch day 19000. -/
def tNow : Int := 86400000 * 19000 + 12 * 3600000

def cfgHour21 : NotificationService.ScheduleConfig :=
  ⟨"Budget Alert", "msg", [], some "high", none, some 21, some 0, none, none⟩

def cfgHour20 : NotificationService.ScheduleConfig :=
  ⟨"Budget Alert", "msg", [], some "high", none, some 20, some 0, none, none⟩

/-- A date-variant spec whose absolute date lies two days in the past. -/
def cfgDatePast : NotificationService.ScheduleConfig :=
  ⟨"Bill Due Today", "msg", [], none, none, none, none, none, some (tNow - 2 * 86400000)⟩

def uberTx : AIService.Transaction := ⟨"Uber ride", JSNum.fin 20, "2024-01-01", none⟩
def pizzaTx : AIService.Transaction := ⟨"Pizza Hut", JSNum.fin 15, "2024-01-02", none⟩

def budgetZeroZero : Budget := ⟨"Food", 0, 0⟩

/-- A paid bill reminder (due in the future). -/
def billPaid : NotificationService.BillReminder :=
  ⟨"bill-1", "Rent", 100, 86400000 * 19002, false, none, true⟩

/-- An unpaid bill reminder due (at 09:00) after `tNow`. -/
def billFresh : NotificationService.BillReminder :=
  ⟨"bill-2", "Rent", 100, 86400000 * 19002, false, none, false⟩

/-! ### C3: totality of categorization -/

lemma fallback_mem (d : String) :
    BUDGET_CATEGORIES.contains (AIService.fallbackCategorization d) = true := by
  simp only [AIService.fallbackCategorization]
  split_ifs <;> decide

/-- C3: for any description string and any numeric amount (`NaN`, negative
and zero included), `categorizeTransaction` never throws — it is a total
function of the transaction and the completion outcome, every remote-call
failure being caught and converted to the fallback — and always returns one
of the fixed category names; the keyword fallback classifier is itself pure
and total with values in the same fixed set. -/
theorem categorize_always_fixed_category :
    ∀ (t : AIService.Transaction) (completion : Except String (Option String)),
      BUDGET_CATEGORIES.contains (AIService.categorizeTransaction t completion) = true
      ∧ BUDGET_CATEGORIES.contains (AIService.fallbackCategorization t.description) = true := by
  intro t completion
  refine ⟨?_, fallback_mem t.description⟩
  unfold AIService.categorizeTransaction
  match completion with
  | .error e => exact fallback_mem t.description
  | .ok content? =>
    simp only
    split
    · assumption
    · decide

/-! ### C5: the fallback spending pattern on the Uber/Pizza example -/

/-- C5 counterexample: the keyword regex `/food|restaurant|grocery|meal|drink|cafe/`
does not match "pizza hut", so the fallback classifies "Pizza Hut" as
"Other", and the claimed `frequentCategories = [{Transportation,1},{Food,1}]`
is false on the code. -/
theorem pizza_hut_is_other_not_food :
    AIService.fallbackCategorization "Pizza Hut" = "Other"
    ∧ (AIService.getFallbackSpendingPattern [uberTx, pizzaTx] []).frequentCategories
        = [("Transportation", 1), ("Other", 1)]
    ∧ ((AIService.getFallbackSpendingPattern [uberTx, pizzaTx] []).frequentCategories
        = [("Transportation", 1), ("Food", 1)] → False) := by
  refine ⟨by decide, by decide, by decide⟩

/-- C5 (amended): with the AI path failing, the fallback classifies
"Uber ride" as Transportation and "Pizza Hut" as Other (no Food keyword
occurs in "pizza hut"), yielding `frequentCategories =
[{Transportation,1},{Other,1}]` in stable descending-frequency order and
`monthlyTrend = stable`. -/
theorem fallback_pattern_uber_pizza :
    ∃ p, AIService.analyzeSpendingPatterns [uberTx, pizzaTx] [] (.error "network failure")
          = AIService.AnalyzeResult.fallback p
      ∧ p.frequentCategories = [("Transportation", 1), ("Other", 1)]
      ∧ p.monthlyTrend = "stable"
      ∧ AIService.fallbackCategorization "Uber ride" = "Transportation"
      ∧ AIService.fallbackCategorization "Pizza Hut" = "Other" :=
  ⟨_, rfl, by decide, rfl, by decide, by decide⟩

/-! ### C6: malformed analysis responses are returned unvalidated -/

/-- C6 counterexample: the response body `"{}"` (written via `\x7b\x7d`)
parses as the empty JSON object, which does not conform to the
SpendingPattern shape, yet `analyzeSpendingPatterns` returns it as the
payload rather than the deterministic fallback. -/
theorem malformed_json_returned_unvalidated :
    AIService.analyzeSpendingPatterns [] [] (.ok (some "\x7b\x7d"))
      = AIService.AnalyzeResult.parsed (JVal.jobj [])
    ∧ AIService.conformsToSpendingPatternShape (JVal.jobj []) = false
    ∧ (AIService.analyzeSpendingPatterns [] [] (.ok (some "\x7b\x7d"))
        = AIService.AnalyzeResult.fallback (AIService.getFallbackSpendingPattern [] []) → False) :=
  ⟨rfl, rfl, fun h => AIService.AnalyzeResult.noConfusion h⟩

/-- C6 (amended): only a thrown request failure or a JSON syntax error routes
`analyzeSpendingPatterns` to the deterministic fallback; any response body
the JSON parser accepts — conformant to the SpendingPattern shape or not —
is returned as the payload, unvalidated. -/
theorem analyze_parse_unvalidated :
    ∀ (txs : List AIService.Transaction) (budgets : List Budget) (e s : String) (j : JVal),
      (AIService.analyzeSpendingPatterns txs budgets (.error e)
        = AIService.AnalyzeResult.fallback (AIService.getFallbackSpendingPattern txs budgets))
      ∧ (s ≠ "" → jsonParse s = some j →
          AIService.analyzeSpendingPatterns txs budgets (.ok (some s))
            = AIService.AnalyzeResult.parsed j)
      ∧ (s ≠ "" → jsonParse s = none →
          AIService.analyzeSpendingPatterns txs budgets (.ok (some s))
            = AIService.AnalyzeResult.fallback (AIService.getFallbackSpendingPattern txs budgets)) := by
  intro txs budgets e s j
  refine ⟨rfl, ?_, ?_⟩ <;> intro hne hp <;>
    simp [AIService.analyzeSpendingPatterns, jsOrStr, hne, hp]

theorem analyze_parse_unvalidated_witness :
    AIService.analyzeSpendingPatterns [] [] (.ok (some "[\x7b\x7d]"))
      = AIService.AnalyzeResult.parsed (JVal.jarr [JVal.jobj []]) :=
  (analyze_parse_unvalidated [] [] "e" "[\x7b\x7d]" (JVal.jarr [JVal.jobj []])).2.1
    (by decide) (by rfl)

/-! ### C8: idempotent cancel -/

/-- C8: with a functioning enumeration, `cancelBillReminder` asks the
substrate to cancel exactly the scheduled notifications whose
`data.reminderId` equals the given id, and with zero matches it completes
without error having made zero cancel calls. -/
theorem cancel_bill_reminder_exact_and_idempotent :
    ∀ (reminderId : String) (env : NotificationService.Env)
      (scheduled : List NotificationService.ScheduledNotification),
      env.getScheduledResult = .ok scheduled →
      (NotificationService.cancelBillReminder reminderId env).2
        = ((scheduled.filter (fun n => n.data.lookup "reminderId" == some reminderId)).map
            NotificationService.ScheduledNotification.identifier)
      ∧ (scheduled.filter (fun n => n.data.lookup "reminderId" == some reminderId) = [] →
          NotificationService.cancelBillReminder reminderId env = (.ok (), [])) := by
  intro reminderId env scheduled h
  constructor
  · simp [NotificationService.cancelBillReminder, h]
  · intro hz
    simp [NotificationService.cancelBillReminder, h, hz]

theorem cancel_bill_reminder_witness :
    NotificationService.cancelBillReminder "bill-42" envEmptySub = (.ok (), []) :=
  (cancel_bill_reminder_exact_and_idempotent "bill-42" envEmptySub [] rfl).2 rfl

/-! ### C1: the hour validation is caught by the function's own catch -/

/-- C1 counterexample: calling the scheduling primitive with `hour = 21`
does not throw to the caller: the internal throw is swallowed by
`scheduleNotification`'s own catch, and the caller receives the very same
null-shaped result as the runtime failures (second conjunct exhibits the
internal error the catch consumed; no substrate call was made). -/
theorem hour21_caught_not_thrown :
    NotificationService.scheduleNotification cfgHour21 0 envEmptySub = (none, [])
    ∧ NotificationService.scheduleNotificationTry cfgHour21 0 envEmptySub
        = (.error "Hour must be between 9 and 20", []) :=
  ⟨rfl, rfl⟩

/-- C1 (amended): an explicitly provided hour outside `[MIN_HOUR, MAX_HOUR]`
makes the try body throw before any substrate scheduling call, but the
function's own catch converts that throw into the null result (so the
caller cannot distinguish it from a runtime failure); an explicit hour
inside the window passes validation and the call proceeds. -/
theorem hour_bounds_checked_before_substrate :
    ∀ (cfg : NotificationService.ScheduleConfig) (now : Int) (env : NotificationService.Env),
      (∀ h, cfg.hour = some h →
        (h < NotificationService.MIN_HOUR ∨ NotificationService.MAX_HOUR < h) →
        NotificationService.scheduleNotificationTry cfg now env
          = (.error "Hour must be between 9 and 20", [])
        ∧ NotificationService.scheduleNotification cfg now env = (none, []))
      ∧ (∀ h, cfg.hour = some h → NotificationService.MIN_HOUR ≤ h →
          h ≤ NotificationService.MAX_HOUR →
          NotificationService.scheduleNotificationTry cfg now env
            = NotificationService.scheduleNotificationCore cfg now env) := by
  intro cfg now env
  constructor
  · intro h hh hrange
    have hbad : NotificationService.hourOutOfRange cfg.hour = true := by
      simp [NotificationService.hourOutOfRange, hh]
      omega
    constructor
    · simp [NotificationService.scheduleNotificationTry, hbad]
    · simp [NotificationService.scheduleNotification,
        NotificationService.scheduleNotificationTry, hbad]
  · intro h hh h1 h2
    have hok : NotificationService.hourOutOfRange cfg.hour = false := by
      simp [NotificationService.hourOutOfRange, hh]
      omega
    simp [NotificationService.scheduleNotificationTry, hok]

theorem hour_bounds_witness :
    NotificationService.scheduleNotification cfgHour21 0 envEmptySub = (none, [])
    ∧ NotificationService.scheduleNotificationTry cfgHour20 0 envEmptySub
        = NotificationService.scheduleNotificationCore cfgHour20 0 envEmptySub :=
  ⟨((hour_bounds_checked_before_substrate cfgHour21 0 envEmptySub).1 21 rfl (by decide)).2,
   (hour_bounds_checked_before_substrate cfgHour20 0 envEmptySub).2 20 rfl (by decide) (by decide)⟩

/-! ### C4: the budget-alert trigger condition -/

/-- C4 counterexample: a budget with `amount = 0` and `spent = 0` does not
trigger an alert — `0/0` is `NaN`, `NaN * 100` is `NaN`, and `NaN >= 80` is
false — so the alert is not unconditional for `amount == 0`. -/
theorem zero_budget_zero_spent_no_alert :
    NotificationService.budgetAlertCond budgetZeroZero = false
    ∧ NotificationService.scheduleBudgetAlerts [budgetZeroZero] envEmptySub 0 = [] := by
  have h : NotificationService.budgetAlertCond budgetZeroZero = false := by
    simp [NotificationService.budgetAlertCond, budgetZeroZero, jsDiv, jsMul, jsGe]
  refine ⟨h, ?_⟩
  simp [NotificationService.scheduleBudgetAlerts, h]

/-- C4 (amended): a budget triggers an alert exactly when the JS expression
`spent/amount * 100 >= 80` evaluates to true; no input crashes.  For
`amount = 0` this means: the alert triggers iff `spent > 0` (`Infinity`
case); with `spent = 0` (`NaN`) or `spent < 0` (`-Infinity`) it does not
trigger. -/
theorem budget_alert_condition :
    ∀ (b : Budget) (budgets : List Budget) (env : NotificationService.Env) (now : Int),
      (NotificationService.budgetAlertCond b = true
        ↔ (if b.amount = 0 then 0 < b.spent else 80 ≤ b.spent / b.amount * 100))
      ∧ (NotificationService.scheduleBudgetAlerts budgets env now).length
          = (budgets.filter NotificationService.budgetAlertCond).length := by
  intro b budgets env now
  constructor
  · unfold NotificationService.budgetAlertCond
    by_cases h0 : b.amount = 0
    · rcases lt_trichotomy (0 : ℚ) b.spent with hs | hs | hs
      · simp [jsDiv, jsMul, jsGe, h0, hs, not_lt.mpr (le_of_lt hs)]
      · simp [jsDiv, jsMul, jsGe, h0, ← hs]
      · simp [jsDiv, jsMul, jsGe, h0, hs, not_lt.mpr (le_of_lt hs), asymm hs]
    · simp [jsDiv, jsMul, jsGe, h0]
  · simp [NotificationService.scheduleBudgetAlerts]

/-! ### Time-arithmetic lemmas for the scheduling resolvers -/

namespace NotificationService

lemma jsGetDay_bounds (t : Int) : 0 ≤ jsGetDay t ∧ jsGetDay t < 7 := by
  simp only [jsGetDay, msPerDay]
  omega

lemma jsGetDay_add_nat_mul (t : Int) (k : Nat) :
    jsGetDay (t + (k : Int) * msPerDay) = (jsGetDay t + (k : Int)) % 7 := by
  simp only [jsGetDay, msPerDay]
  omega

lemma setHoursTo_lower (now h m : Int) (hh : 0 ≤ h) (hm : 0 ≤ m) :
    now - msPerDay < setHoursTo now h m := by
  simp only [setHoursTo, msPerDay, msPerHour, msPerMinute]
  omega

lemma timeOfDay_fields (q h m : Int) (h1 : 0 ≤ h) (h2 : h ≤ 23) (h3 : 0 ≤ m) (h4 : m ≤ 59) :
    jsGetHours (q * msPerDay + h * msPerHour + m * msPerMinute) = h
    ∧ jsGetMinutes (q * msPerDay + h * msPerHour + m * msPerMinute) = m := by
  simp only [jsGetHours, jsGetMinutes, msPerDay, msPerHour, msPerMinute]
  omega

/-- If the `n`-th one-day step from `d` is the first date on the requested
weekday lying strictly after `now`, the loop stops there (given fuel). -/
lemma loopReach (weekDay now : Int) :
    ∀ (n : Nat) (fuel : Nat) (d : Int), n < fuel →
      jsGetDay (d + (n : Int) * msPerDay) = weekDay →
      now < d + (n : Int) * msPerDay →
      (∀ k : Nat, k < n →
        ¬(jsGetDay (d + (k : Int) * msPerDay) = weekDay ∧ now < d + (k : Int) * msPerDay)) →
      getNextWeekdayLoop weekDay now fuel d = some (d + (n : Int) * msPerDay) := by
  intro n
  induction n with
  | zero =>
    intro fuel d hf hday hnow hmin
    match fuel, hf with
    | f + 1, _ =>
      simp only [getNextWeekdayLoop]
      rw [if_pos]
      · norm_num
      · constructor
        · simpa using hday
        · simpa using hnow
  | succ n ih =>
    intro fuel d hf hday hnow hmin
    match fuel, hf with
    | f + 1, hf =>
      have harith : d + msPerDay + (n : Int) * msPerDay = d + ((n + 1 : Nat) : Int) * msPerDay := by
        push_cast
        ring
      simp only [getNextWeekdayLoop]
      rw [if_neg]
      · have hrec := ih f (d + msPerDay) (by omega)
          (by rw [harith]; exact hday)
          (by rw [harith]; exact hnow)
          (fun k hk => by
            have h2 := hmin (k + 1) (by omega)
            have harith2 : d + msPerDay + (k : Int) * msPerDay
                = d + ((k + 1 : Nat) : Int) * msPerDay := by
              push_cast
              ring
            rw [harith2]
            exact h2)
        rw [hrec, harith]
      · have h0 := hmin 0 (by omega)
        simpa using h0


/-- For a weekday in `[0,6]` and a start date after `now - 1 day`, some step
index `n < 8` first satisfies the loop's exit condition. -/
lemma weekday_hit_exists (weekDay now d0 : Int) (hw0 : 0 ≤ weekDay) (hw7 : weekDay < 7)
    (hd0 : now - msPerDay < d0) :
    ∃ n : Nat, n < 8 ∧ jsGetDay (d0 + (n : Int) * msPerDay) = weekDay
      ∧ now < d0 + (n : Int) * msPerDay
      ∧ ∀ k : Nat, k < n →
          ¬(jsGetDay (d0 + (k : Int) * msPerDay) = weekDay ∧ now < d0 + (k : Int) * msPerDay) := by
  have hg := jsGetDay_bounds d0
  have hm0def : (weekDay - jsGetDay d0) % 7 = (weekDay - jsGetDay d0) % 7 := rfl
  set g0 := jsGetDay d0 with hg0def
  set m0 : Int := (weekDay - g0) % 7 with hm0eq
  have hm0b : 0 ≤ m0 ∧ m0 < 7 := by omega
  by_cases hc : now < d0 + m0 * msPerDay
  · refine ⟨m0.toNat, by omega, ?_, ?_, ?_⟩
    · rw [jsGetDay_add_nat_mul]
      omega
    · have hcast : ((m0.toNat : Int)) = m0 := by omega
      rw [hcast]
      exact hc
    · intro k hk hcontra
      obtain ⟨hkday, hknow⟩ := hcontra
      rw [jsGetDay_add_nat_mul] at hkday
      omega
  · have hm0z : m0 = 0 := by
      simp only [msPerDay] at hc hd0
      omega
    refine ⟨7, by omega, ?_, ?_, ?_⟩
    · rw [jsGetDay_add_nat_mul]
      omega
    · simp only [msPerDay] at hd0 ⊢
      push_cast
      omega
    · intro k hk hcontra
      obtain ⟨hkday, hknow⟩ := hcontra
      rw [jsGetDay_add_nat_mul] at hkday
      rcases Nat.eq_zero_or_pos k with hk0 | hkpos
      · subst hk0
        simp only [Nat.cast_zero, zero_mul, add_zero] at hknow
        simp only [msPerDay] at hc
        omega
      · omega

/-- Full correctness of `getNextWeekday` for weekday inputs in `[0,6]`. -/
lemma getNextWeekday_spec (weekDay hour minute now : Int)
    (hw0 : 0 ≤ weekDay) (hw7 : weekDay < 7) (hh0 : 0 ≤ hour) (hh : hour ≤ 23)
    (hm0 : 0 ≤ minute) (hm : minute ≤ 59) :
    ∃ t, getNextWeekday weekDay hour minute now = some t ∧ now < t
      ∧ jsGetDay t = weekDay ∧ jsGetHours t = hour ∧ jsGetMinutes t = minute := by
  have hd0 := setHoursTo_lower now hour minute hh0 hm0
  obtain ⟨n, hn8, hday, hnow, hmin⟩ :=
    weekday_hit_exists weekDay now (setHoursTo now hour minute) hw0 hw7 hd0
  have hform : setHoursTo now hour minute + (n : Int) * msPerDay
      = (now / msPerDay + (n : Int)) * msPerDay + hour * msPerHour + minute * msPerMinute := by
    simp only [setHoursTo]
    ring
  refine ⟨setHoursTo now hour minute + (n : Int) * msPerDay, ?_, hnow, hday, ?_, ?_⟩
  · exact loopReach weekDay now n 8 (setHoursTo now hour minute) (by omega) hday hnow hmin
  · rw [hform]
    exact (timeOfDay_fields _ hour minute hh0 hh hm0 hm).1
  · rw [hform]
    exact (timeOfDay_fields _ hour minute hh0 hh hm0 hm).2

/-- Full correctness of `getNextTime`. -/
lemma getNextTime_spec (hour minute now : Int) (hh0 : 0 ≤ hour) (hh : hour ≤ 23)
    (hm0 : 0 ≤ minute) (hm : minute ≤ 59) :
    now < getNextTime hour minute now
    ∧ jsGetHours (getNextTime hour minute now) = hour
    ∧ jsGetMinutes (getNextTime hour minute now) = minute
    ∧ (setHoursTo now hour minute ≤ now →
        getNextTime hour minute now = setHoursTo now hour minute + msPerDay) := by
  have hlow := setHoursTo_lower now hour minute hh0 hm0
  have hform1 := timeOfDay_fields (now / msPerDay) hour minute hh0 hh hm0 hm
  have hform2 := timeOfDay_fields (now / msPerDay + 1) hour minute hh0 hh hm0 hm
  have heq1 : setHoursTo now hour minute
      = (now / msPerDay) * msPerDay + hour * msPerHour + minute * msPerMinute := by
    simp only [setHoursTo]
  have heq2 : setHoursTo now hour minute + msPerDay
      = (now / msPerDay + 1) * msPerDay + hour * msPerHour + minute * msPerMinute := by
    simp only [setHoursTo]
    ring
  by_cases hc : setHoursTo now hour minute ≤ now
  · have hval : getNextTime hour minute now = setHoursTo now hour minute + msPerDay := by
      simp [getNextTime, hc]
    rw [hval]
    refine ⟨by omega, ?_, ?_, fun _ => rfl⟩
    · rw [heq2]
      exact hform2.1
    · rw [heq2]
      exact hform2.2
  · have hval : getNextTime hour minute now = setHoursTo now hour minute := by
      simp [getNextTime, hc]
    rw [hval]
    refine ⟨by omega, ?_, ?_, fun hle => absurd hle hc⟩
    · rw [heq1]
      exact hform1.1
    · rw [heq1]
      exact hform1.2

/-- `initialize` settles with `.ok` for every collaborator behaviour: its
try/catch covers every throwing call. -/
lemma initializeService_ok (i : Bool) (env : Env) :
    ∃ p, initializeService i env = .ok p := by
  unfold initializeService
  split_ifs
  · exact ⟨_, rfl⟩
  · cases initTryBody env <;> exact ⟨_, rfl⟩

/-- The trace of `scheduleNotification` on a date-variant config with no
explicit hour: exactly one substrate call, with the resolved trigger. -/
lemma scheduleNotification_date_calls (cfg : ScheduleConfig) (now : Int) (env : Env) (d : Int)
    (hd : cfg.date = some d) (hh : cfg.hour = none) :
    (scheduleNotification cfg now env).2
      = [mkSubstrateCall cfg now (if d ≤ now then d + msPerDay else d)] := by
  unfold scheduleNotification scheduleNotificationTry scheduleNotificationCore resolveTrigger
    resolveTarget hourOutOfRange
  rw [hd, hh]
  simp only [Option.map_some]
  cases h : env.scheduleResult (mkSubstrateCall cfg now (if d ≤ now then d + msPerDay else d)) <;>
    simp [h]

end NotificationService

/-! ### C10: getNextWeekday terminates and is correct -/

/-- C10: for every weekday in `[0,6]`, hour in `[0,23]`, minute in `[0,59]`
and every current time, the `getNextWeekday` loop terminates within the
8-step fuel bound (so after at most 8 — in fact at most 7 — day increments)
and returns a date strictly after the current time, on the requested
weekday, carrying exactly the requested hour and minute. -/
theorem getNextWeekday_terminates_correct :
    ∀ (weekDay hour minute now : Int), 0 ≤ weekDay → weekDay < 7 →
      0 ≤ hour → hour ≤ 23 → 0 ≤ minute → minute ≤ 59 →
      ∃ t, NotificationService.getNextWeekday weekDay hour minute now = some t
        ∧ now < t ∧ NotificationService.jsGetDay t = weekDay
        ∧ NotificationService.jsGetHours t = hour
        ∧ NotificationService.jsGetMinutes t = minute :=
  fun wd h m now h1 h2 h3 h4 h5 h6 =>
    NotificationService.getNextWeekday_spec wd h m now h1 h2 h3 h4 h5 h6

theorem getNextWeekday_witness :
    ∃ t, NotificationService.getNextWeekday 3 10 30 tNow = some t
      ∧ tNow < t ∧ NotificationService.jsGetDay t = 3
      ∧ NotificationService.jsGetHours t = 10
      ∧ NotificationService.jsGetMinutes t = 30 :=
  getNextWeekday_terminates_correct 3 10 30 tNow (by decide) (by decide) (by decide)
    (by decide) (by decide) (by decide)

/-! ### C2: future-only scheduling -/

/-- C2 counterexample: for the `date` variant of a `ScheduleSpec`, the
resolved trigger is not always strictly in the future: a date two days in
the past gains exactly one day and remains in the past, and the substrate
would be handed a negative relative delay. -/
theorem past_date_trigger_not_future :
    NotificationService.resolveTrigger cfgDatePast tNow = some (tNow - 86400000)
    ∧ ¬(tNow < tNow - 86400000)
    ∧ (NotificationService.mkSubstrateCall cfgDatePast tNow (tNow - 86400000)).seconds = -86400 := by
  refine ⟨by decide, by decide, by decide⟩

/-- C2 (amended): for the hour/minute variant the resolved trigger is
strictly in the future, carries exactly the requested wall-clock hour and
minute, and when the computed time is ≤ now exactly one calendar day is
added; the weekday variant is likewise strictly future; `resolveTrigger`
(the resolution step of `scheduleNotification`) agrees with `getNextTime`
there.  In particular at 09:00:01 the spec `hour=9, minute=0` resolves to
09:00 the next day.  (Only the `date` variant can resolve into the past —
see the counterexample.) -/
theorem resolved_trigger_future_amended :
    ∀ (now hour minute weekDay : Int), 0 ≤ hour → hour ≤ 23 → 0 ≤ minute → minute ≤ 59 →
      0 ≤ weekDay → weekDay < 7 →
      (now < NotificationService.getNextTime hour minute now
        ∧ NotificationService.jsGetHours (NotificationService.getNextTime hour minute now) = hour
        ∧ NotificationService.jsGetMinutes (NotificationService.getNextTime hour minute now) = minute
        ∧ (NotificationService.setHoursTo now hour minute ≤ now →
            NotificationService.getNextTime hour minute now
              = NotificationService.setHoursTo now hour minute + NotificationService.msPerDay))
      ∧ (∃ t, NotificationService.getNextWeekday weekDay hour minute now = some t ∧ now < t)
      ∧ (hour ≠ 0 → ∀ cfg : NotificationService.ScheduleConfig,
          cfg.date = none → cfg.weekDay = none → cfg.hour = some hour → cfg.minute = some minute →
          NotificationService.resolveTrigger cfg now
            = some (NotificationService.getNextTime hour minute now))
      ∧ NotificationService.getNextTime 9 0 (86400000 * 19000 + 9 * 3600000 + 1000)
          = 86400000 * 19001 + 9 * 3600000 := by
  intro now hour minute weekDay hh0 hh hm0 hm hw0 hw7
  have hnt := NotificationService.getNextTime_spec hour minute now hh0 hh hm0 hm
  refine ⟨hnt, ?_, ?_, by decide⟩
  · obtain ⟨t, h1, h2, _⟩ := NotificationService.getNextWeekday_spec weekDay hour minute now
      hw0 hw7 hh0 hh hm0 hm
    exact ⟨t, h1, h2⟩
  · intro hne cfg hd hwd hhr hmin
    unfold NotificationService.resolveTrigger NotificationService.resolveTarget
    rw [hd, hwd, hhr, hmin]
    simp only [jsOrInt, Option.map_some, if_neg hne]
    have : minute = 0 ∨ minute ≠ 0 := em _
    have hmin0 : (if minute = 0 then (0 : Int) else minute) = minute := by
      split_ifs with h
      · omega
      · rfl
    rw [hmin0]
    simp only [Option.map]
    rw [if_neg (not_le.mpr hnt.1)]

theorem resolved_trigger_future_witness :
    tNow < NotificationService.getNextTime 9 0 tNow
    ∧ (∃ t, NotificationService.getNextWeekday 0 9 0 tNow = some t ∧ tNow < t) :=
  ⟨(resolved_trigger_future_amended tNow 9 0 0 (by decide) (by decide) (by decide) (by decide)
      (by decide) (by decide)).1.1,
   (resolved_trigger_future_amended tNow 9 0 0 (by decide) (by decide) (by decide) (by decide)
      (by decide) (by decide)).2.1⟩

/-! ### C7: paid/past-due suppression in scheduleBillReminder -/

/-- C7: `scheduleBillReminder` returns `null` and schedules nothing whenever
the reminder is paid (regardless of due date) and whenever the due date
resolved at fixed 09:00 local is strictly in the past; otherwise it submits
exactly one notification whose `data.reminderId` is the reminder's id. -/
theorem bill_reminder_suppression :
    ∀ (r : NotificationService.BillReminder) (isInit : Bool)
      (env : NotificationService.Env) (now : Int),
      (r.paid = true →
        ∃ st, NotificationService.scheduleBillReminder r isInit env now = .ok (none, st, []))
      ∧ (NotificationService.setHoursTo r.due_date 9 0 < now →
        ∃ st, NotificationService.scheduleBillReminder r isInit env now = .ok (none, st, []))
      ∧ (r.paid = false → ¬(NotificationService.setHoursTo r.due_date 9 0 < now) →
        ∃ st res c, NotificationService.scheduleBillReminder r isInit env now = .ok (res, st, [c])
          ∧ c.data.lookup "reminderId" = some r.id) := by
  intro r isInit env now
  obtain ⟨p, hp⟩ : ∃ p, (if isInit then Except.ok (true, true)
      else NotificationService.initializeService false env) = .ok p := by
    cases isInit
    · simpa using NotificationService.initializeService_ok false env
    · exact ⟨(true, true), rfl⟩
  refine ⟨?_, ?_, ?_⟩
  · intro hpaid
    refine ⟨p.2, ?_⟩
    unfold NotificationService.scheduleBillReminder
    rw [hp]
    simp [hpaid]
  · intro hpast
    refine ⟨p.2, ?_⟩
    unfold NotificationService.scheduleBillReminder
    rw [hp]
    simp [hpast]
  · intro hpaid hnotpast
    unfold NotificationService.scheduleBillReminder
    rw [hp]
    simp only [hpaid, hnotpast, Bool.false_eq_true, or_self, if_false, if_neg]
    set cfg : NotificationService.ScheduleConfig :=
      { title := "Bill Due Today"
        body := r.title ++ " - $" ++ NotificationService.toFixed2 r.amount ++ " is due today"
        data := [("reminderId", r.id)]
        priority := none
        sound := none
        hour := none
        minute := none
        weekDay := none
        date := some (NotificationService.setHoursTo r.due_date 9 0) } with hcfg
    have hcalls := NotificationService.scheduleNotification_date_calls cfg now env
      (NotificationService.setHoursTo r.due_date 9 0) rfl rfl
    refine ⟨p.2, (NotificationService.scheduleNotification cfg now env).1,
      NotificationService.mkSubstrateCall cfg now
        (if NotificationService.setHoursTo r.due_date 9 0 ≤ now
         then NotificationService.setHoursTo r.due_date 9 0 + NotificationService.msPerDay
         else NotificationService.setHoursTo r.due_date 9 0), ?_, ?_⟩
    · rw [← hcalls]
    · simp [NotificationService.mkSubstrateCall, hcfg, List.lookup]

theorem bill_reminder_suppression_witness :
    (∃ st, NotificationService.scheduleBillReminder billPaid true envEmptySub tNow
        = .ok (none, st, []))
    ∧ (∃ st res c, NotificationService.scheduleBillReminder billFresh true envEmptySub tNow
        = .ok (res, st, [c]) ∧ c.data.lookup "reminderId" = some billFresh.id) :=
  ⟨(bill_reminder_suppression billPaid true envEmptySub tNow).1 rfl,
   (bill_reminder_suppression billFresh true envEmptySub tNow).2.2 rfl (by decide)⟩

/-! ### C9: failure containment at the public operations -/

/-- C9 counterexample: a substrate failure inside `cancelBillReminder`
(enumeration of scheduled notifications throwing) is not caught — the
operation's promise rejects, leaking the failure to the caller. -/
theorem cancel_bill_reminder_propagates_failure :
    (NotificationService.cancelBillReminder "bill-1" envListFails).1 = .error "substrate down" :=
  rfl

/-- C9 (amended): `initialize`, `scheduleRandomNotifications` and
`scheduleBillReminder` convert every collaborator failure to a typed
fallback/null/no-op result and never reject; `cancelBillReminder` alone has
no catch and propagates substrate failures (see the counterexample). -/
theorem public_ops_contain_failures :
    ∀ (isInit : Bool) (env : NotificationService.Env) (now : Int)
      (txs : List AIService.Transaction) (budgets : List Budget)
      (r : NotificationService.BillReminder),
      (NotificationService.initializeService isInit env).isOk = true
      ∧ (NotificationService.scheduleRandomNotifications isInit env now txs budgets).isOk = true
      ∧ (NotificationService.scheduleBillReminder r isInit env now).isOk = true := by
  intro isInit env now txs budgets r
  obtain ⟨p, hp⟩ : ∃ p, (if isInit then Except.ok (true, true)
      else NotificationService.initializeService false env) = .ok p := by
    cases isInit
    · simpa using NotificationService.initializeService_ok false env
    · exact ⟨(true, true), rfl⟩
  refine ⟨?_, ?_, ?_⟩
  · obtain ⟨q, hq⟩ := NotificationService.initializeService_ok isInit env
    rw [hq]
    rfl
  · unfold NotificationService.scheduleRandomNotifications
    rw [hp]
    obtain ⟨a, b⟩ := p
    by_cases ha : a = false <;> simp [ha, Except.isOk, Except.toBool]
  · unfold NotificationService.scheduleBillReminder
    rw [hp]
    obtain ⟨a, b⟩ := p
    by_cases hcond : NotificationService.setHoursTo r.due_date 9 0 < now ∨ r.paid = true <;>
      simp [hcond, Except.isOk, Except.toBool]
